import Mathlib

/-!
Verification of the macro-mapping engine of the `massive` repository
(`src/massive/macros.py`) against its natural-language specification.

The Python code is shallowly embedded:

* Python floats are modelled by exact rationals (`ℚ`).  All numeric
  constants appearing in the engine (0, 1, 127, 1e-9, entry constants)
  are exactly representable, and every arithmetic step exercised by the
  claims (linear range mapping, clamping, rounding) is exact in `ℚ`.
  IEEE special values (inf, nan) and irrational results of `**`
  and `sqrt` have no rational counterpart; the corresponding model
  functions are flagged where this matters, and no claim depends on them.
* JSON/YAML documents (the patch document and the configuration
  entries) are modelled by the inductive type `Val` with string-keyed
  mappings, matching the shape of documents produced by `yaml.safe_load`
  / `json.load` in this repository.
* Python exceptions that escape a function are modelled with
  `Except String`; exceptions that the source catches are folded into
  the same `Option`/default dataflow the source uses.
* `ast.parse` (the Python expression parser, a standard-library
  collaborator, not code of this repository) is a parameter
  `parseExpr : String → Except String PyAst` of the engine; the AST
  walker `_SafeEval.visit` itself is embedded faithfully as `safeEval`.
-/

/- Batteries marks the arithmetic of `Rat` irreducible; re-enable
unfolding locally so that concrete runs of the engine can be settled by
kernel reduction (`decide`). -/
attribute [local semireducible] Rat.mul Rat.inv Rat.add Rat.sub Rat.ofScientific

/- `Except` carries no decidable equality in the toolchain; results of the
engine are compared in concrete runs, so derive it. -/
deriving instance DecidableEq for Except

namespace Massive

/-- Python `round` on a real number: round half to even (banker rounding),
modelled exactly on `ℚ`. -/
def pyRound (q : ℚ) : Int :=
  let n := ⌊q⌋
  let r := q - (n : ℚ)
  if r < 1/2 then n
  else if 1/2 < r then n + 1
  else if n % 2 = 0 then n else n + 1

/-- Numeric value of a list of ASCII digit characters, most significant first. -/
def digitsVal (cs : List Char) : ℕ :=
  cs.foldl (fun a c => a * 10 + (c.toNat - 48)) 0

/-- True when the list is non-empty and every character is an ASCII digit.
Models the digit-run requirement of Python numeric literals (and, for
dot-separated path segments, `str.isdigit`, restricted to ASCII digits,
which is what the documents of this repository contain). -/
def allDigits (cs : List Char) : Bool :=
  !cs.isEmpty && cs.all (·.isDigit)

/-- Split a character list at the first character satisfying `p`:
returns the part before it and, when found, the remainder after it. -/
def splitAtFirst (p : Char → Bool) : List Char → List Char × Option (List Char)
  | [] => ([], none)
  | c :: rest =>
    if p c then ([], some rest)
    else
      let (pre, post) := splitAtFirst p rest
      (c :: pre, post)

/-- Optional leading sign of a numeric literal; returns the sign as `±1`
and the remaining characters. -/
def takeSign : List Char → Int × List Char
  | '+' :: rest => (1, rest)
  | '-' :: rest => (-1, rest)
  | cs => (1, cs)

/-- Whitespace stripping (`str.strip()`), kernel-reducible. -/
def trimChars (cs : List Char) : List Char :=
  ((cs.dropWhile Char.isWhitespace).reverse.dropWhile Char.isWhitespace).reverse

/-- Split a character list on a separator character, Python
`str.split(sep)` style: adjacent separators yield empty segments and the
result is never empty. -/
def splitChar (sep : Char) : List Char → List (List Char)
  | [] => [[]]
  | c :: rest =>
    let r := splitChar sep rest
    if c = sep then [] :: r
    else
      match r with
      | [] => [[c]]
      | seg :: segs => (c :: seg) :: segs

/-- Model of Python `int(string)` as used for bracketed path indices:
strip whitespace, optional sign, non-empty ASCII digit run; anything else
raises `ValueError`, modelled as `none`.  (Underscore digit separators,
accepted by Python, are not modelled; no document in the claims uses them.) -/
def parsePyInt (s : String) : Option Int :=
  let (sgn, cs) := takeSign (trimChars s.toList)
  if allDigits cs then some (sgn * (digitsVal cs : Int)) else none

/-- Model of Python `float(string)`: strip whitespace, optional sign,
decimal mantissa with optional fraction, optional decimal exponent.
Returns `none` where Python raises `ValueError`.  (The literals `inf` and
`nan`, accepted by Python, have no rational value and are modelled as
`none`; no claim depends on them.) -/
def parsePyFloat (s : String) : Option ℚ :=
  let (sgn, cs) := takeSign (trimChars s.toList)
  let (mant, expPart) := splitAtFirst (fun c => c = 'e' || c = 'E') cs
  let (intPart, fracOpt) := splitAtFirst (fun c => c = '.') mant
  let fracPart := fracOpt.getD []
  if intPart.all (·.isDigit) && fracPart.all (·.isDigit)
      && !(intPart.isEmpty && fracPart.isEmpty) then
    let base : ℚ :=
      (digitsVal intPart : ℚ) + (digitsVal fracPart : ℚ) / (10 : ℚ) ^ fracPart.length
    match expPart with
    | none => some ((sgn : ℚ) * base)
    | some es =>
      let (esgn, eds) := takeSign es
      if allDigits eds then
        some ((sgn : ℚ) * base * (10 : ℚ) ^ (esgn * (digitsVal eds : Int)))
      else none
  else none

/-- JSON/YAML-like document values, as produced by `yaml.safe_load` /
`json.load` for the documents this repository handles: `None`, booleans,
ints, floats, strings, lists, and string-keyed mappings. -/
inductive Val where
  | vnone : Val
  | vbool : Bool → Val
  | vint : Int → Val
  | vfloat : ℚ → Val
  | vstr : String → Val
  | vlist : List Val → Val
  | vdict : List (String × Val) → Val
  deriving Repr

/-- First-match lookup in a string-keyed association list (Python dict
keys are unique, so first-match and last-match coincide on real documents). -/
def lookupKV (kvs : List (String × Val)) (k : String) : Option Val :=
  match kvs with
  | [] => none
  | (k0, v) :: rest => if k0 = k then some v else lookupKV rest k

/-- Python truthiness (`bool(v)`) for document values. -/
def pyTruthy : Val → Bool
  | .vnone => false
  | .vbool b => b
  | .vint n => n != 0
  | .vfloat q => q != 0
  | .vstr s => s != ""
  | .vlist xs => !xs.isEmpty
  | .vdict kvs => !kvs.isEmpty

/-- Python `float(v)` applied to a document value: numbers pass through
(`bool` is an `int` in Python, so `True`/`False` become 1.0/0.0), strings
are parsed, and every other type raises `TypeError`, modelled as `none`. -/
def pyFloatOf : Val → Option ℚ
  | .vint n => some (n : ℚ)
  | .vfloat q => some q
  | .vbool b => some (if b then 1 else 0)
  | .vstr s => parsePyFloat s
  | _ => none

/-- Python `isinstance(v, int)` view of a document value (`bool` is a
subclass of `int`): returns the integer when the value is one. -/
def pyAsInt : Val → Option Int
  | .vint n => some n
  | .vbool b => some (if b then 1 else 0)
  | _ => none

/-- Python sequence subscript `xs[i]` with an `int` index: non-negative
indices count from the front, negative indices from the back, out-of-range
raises `IndexError` (`none`). -/
def pySeqGet (xs : List α) (i : Int) : Option α :=
  if 0 ≤ i then xs.get? i.toNat
  else
    let j := (xs.length : Int) + i
    if 0 ≤ j then xs.get? j.toNat else none

/-- Python subscript `cur[i]` with an `int` index on a document value:
lists index as sequences, strings index to one-character strings, every
other container raises (`dict` raises `KeyError` since the modelled dicts
are string-keyed, scalars raise `TypeError`) — all modelled as `none`. -/
def pyGetIdx (cur : Val) (i : Int) : Option Val :=
  match cur with
  | .vlist xs => pySeqGet xs i
  | .vstr s => (pySeqGet s.toList i).map (fun c => .vstr (String.singleton c))
  | _ => none

/-- Python subscript `cur[k]` with a string key: mapping lookup
(`KeyError` on a missing key), `TypeError` on any non-mapping — both
modelled as `none`. -/
def pyGetKey (cur : Val) (k : String) : Option Val :=
  match cur with
  | .vdict kvs => lookupKV kvs k
  | _ => none

mutual

/-- Model of Python `str(v)` on document values.  Exact for strings (the
only case the claims exercise: `str` is applied to `source.path`,
`source.expr`, variable paths and `mapping.curve`, which are strings in
every claim).  Floats render as `num/den`, an approximation of the
shortest-roundtrip decimal repr of CPython; containers render their
elements without the quoting of Python `repr`. -/
def pyStrOfVal : Val → String
  | .vnone => "None"
  | .vbool b => if b then "True" else "False"
  | .vint n => toString n
  | .vfloat q => toString q.num ++ "/" ++ toString q.den
  | .vstr s => s
  | .vlist xs => "[" ++ pyStrOfList xs ++ "]"
  | .vdict kvs => "\x7b" ++ pyStrOfKVs kvs ++ "\x7d"

/-- Comma-joined rendering of a list of document values. -/
def pyStrOfList : List Val → String
  | [] => ""
  | [x] => pyStrOfVal x
  | x :: rest => pyStrOfVal x ++ ", " ++ pyStrOfList rest

/-- Comma-joined rendering of the pairs of a string-keyed mapping. -/
def pyStrOfKVs : List (String × Val) → String
  | [] => ""
  | [(k, v)] => k ++ ": " ++ pyStrOfVal v
  | (k, v) :: rest => k ++ ": " ++ pyStrOfVal v ++ ", " ++ pyStrOfKVs rest

end

/-! ### Path resolver (`resolve_path`) -/

/-- Dot-splitting of the path string: `dotted.split(".") if dotted else []`. -/
def splitParts (dotted : String) : List String :=
  if dotted = "" then [] else (splitChar '.' dotted.toList).map List.asString

/-- Bracket decomposition of one path segment, exactly as the source
slices it: when the segment contains `[` and ends with `]`, return the
text before the FIRST `[` (the key) and the text strictly between the
first `[` and the final `]` (the index text).  For `b[0][1]` this yields
key `b` and index text `0][1` — the source slices with
`part[part.index("[") + 1 : -1]`. -/
def bracketSplit (part : String) : Option (String × String) :=
  let cs := part.toList
  if cs.contains '[' && cs.getLast? == some ']' then
    let i := cs.findIdx (· = '[')
    some (⟨cs.take i⟩, ⟨(cs.drop (i + 1)).dropLast⟩)
  else none

/-- One `for part in parts` step of `resolve_path`.  The bracket branch
of the source sets `part = ""` after one pass, so its `while` loop runs at
most once; a `none` result models both the explicit `return default` (empty
index text) and any exception the enclosing `try` absorbs. -/
def resolveStep (cur : Val) (part : String) : Option Val :=
  match bracketSplit part with
  | some (key, idxStr) =>
    (if key ≠ "" then pyGetKey cur key else some cur).bind fun cur1 =>
      if idxStr = "" then none
      else (parsePyInt idxStr).bind fun i => pyGetIdx cur1 i
  | none =>
    if part = "" then some cur
    else
      match cur with
      | .vlist xs =>
        if allDigits part.toList then pySeqGet xs (digitsVal part.toList : Int)
        else none
      | _ => pyGetKey cur part

/-- Terminal coercion of `resolve_path`: ints/floats (and bools, which are
ints in Python) pass through as floats, strings are stripped and parsed as
a float with `default` on parse failure, anything else yields `default`. -/
def coerceTerminal (cur : Val) (default : Option ℚ) : Option ℚ :=
  match cur with
  | .vint n => some (n : ℚ)
  | .vfloat q => some q
  | .vbool b => some (if b then 1 else 0)
  | .vstr s =>
    match parsePyFloat s with
    | some q => some q
    | none => default
  | _ => default

/-- Embedding of `resolve_path(root, dotted, default)`: walk the
dot-separated segments, then coerce the terminal value; any structural
failure yields `default`. -/
def resolvePath (root : Val) (dotted : String) (default : Option ℚ) : Option ℚ :=
  match (splitParts dotted).foldlM resolveStep root with
  | some cur => coerceTerminal cur default
  | none => default

/-! ### Safe expression evaluator (`_SafeEval`) -/

/-- Python `ast` binary operator kinds (the node tags `_SafeEval.visit`
can encounter under `ast.BinOp`). -/
inductive PyBinOp where
  | addB | subB | multB | divB | powB | modB
  | floorDivB | matMultB | lshiftB | rshiftB | bitOrB | bitXorB | bitAndB
  deriving DecidableEq, Repr

/-- Python `ast` unary operator kinds. -/
inductive PyUnOp where
  | uAdd | uSub | uNot | uInvertOp
  deriving DecidableEq, Repr

/-- Python constant values an `ast.Constant` node can carry in an
arithmetic expression document. -/
inductive PyConstVal where
  | cInt : Int → PyConstVal
  | cFloat : ℚ → PyConstVal
  | cBool : Bool → PyConstVal
  | cStr : String → PyConstVal
  | cNone : PyConstVal
  deriving DecidableEq, Repr

/-- Shapes of Python expression AST nodes reachable from `ast.parse(expr,
mode="eval")`, covering the node kinds `_SafeEval.visit` dispatches on and
representatives of the disallowed remainder (comparison, attribute access,
container literals, conditional expression). -/
inductive PyAst where
  | constant : PyConstVal → PyAst
  | name : String → PyAst
  | binOp : PyBinOp → PyAst → PyAst → PyAst
  | unaryOp : PyUnOp → PyAst → PyAst
  | call : PyAst → List PyAst → PyAst
  | compareAst : PyAst → List PyAst → PyAst
  | attributeAst : PyAst → String → PyAst
  | listAst : List PyAst → PyAst
  | tupleAst : List PyAst → PyAst
  | dictAst : List (PyAst × PyAst) → PyAst
  | ifExpAst : PyAst → PyAst → PyAst → PyAst
  deriving Repr

/-- Exact rational square root: models `math.sqrt` on `ℚ`.  Exact when the
radicand is a square of a rational; an irrational result has no rational
counterpart and is modelled as an error (no claim evaluates such a call). -/
def ratSqrt (q : ℚ) : Except String ℚ :=
  let sn := Nat.sqrt q.num.toNat
  let sd := Nat.sqrt q.den
  if sn * sn = q.num.toNat ∧ sd * sd = q.den then
    Except.ok ((sn : ℚ) / (sd : ℚ))
  else Except.error "model: irrational square root"

/-- Python `**` on non-negative-exponent rationals, and more generally the
`left ** right` of `_SafeEval`: exact for integer exponents; a fractional
exponent generally yields an irrational (or complex) number with no
rational counterpart, modelled as an error (no claim evaluates one). -/
def qPowE (a b : ℚ) : Except String ℚ :=
  if b.den = 1 then
    if 0 ≤ b.num then Except.ok (a ^ b.num.toNat)
    else if a = 0 then Except.error "ZeroDivisionError"
    else Except.ok ((a ^ (-b.num).toNat)⁻¹)
  else Except.error "model: non-integer exponent"

/-- Python `%` on floats (sign follows the divisor), exact on `ℚ`:
`a - b * floor(a / b)`. -/
def pyFMod (a b : ℚ) : ℚ :=
  a - b * (⌊a / b⌋ : ℚ)

/-- Binary operator dispatch of `_SafeEval.visit` on an `ast.BinOp` node,
applied after both operands have been visited.  Only `+ - * / ** %` are
accepted; every other operator raises `ValueError("Operator not allowed")`. -/
def applyBin (op : PyBinOp) (a b : ℚ) : Except String ℚ :=
  match op with
  | .addB => Except.ok (a + b)
  | .subB => Except.ok (a - b)
  | .multB => Except.ok (a * b)
  | .divB => if b = 0 then Except.error "ZeroDivisionError" else Except.ok (a / b)
  | .powB => qPowE a b
  | .modB => if b = 0 then Except.error "ZeroDivisionError" else Except.ok (pyFMod a b)
  | _ => Except.error "Operator not allowed"

/-- Function application for the fixed allow-list `min`, `max`, `abs`,
`sqrt`, applied after all argument nodes have been visited.  Arity
behaviour follows Python: `min`/`max` need at least two (non-iterable)
arguments, `abs` and `sqrt` exactly one; violations raise `TypeError`.
`sqrt` of a negative raises `ValueError` (math domain error). -/
def applyFn (fn : String) (vs : List ℚ) : Except String ℚ :=
  match fn, vs with
  | "min", v :: w :: rest => Except.ok ((w :: rest).foldl min v)
  | "max", v :: w :: rest => Except.ok ((w :: rest).foldl max v)
  | "abs", [v] => Except.ok |v|
  | "sqrt", [v] =>
    if v < 0 then Except.error "ValueError: math domain error" else ratSqrt v
  | _, _ => Except.error "TypeError: bad arity"

/-- Name set of `_ALLOWED_FUNCS`. -/
def allowedFuncs : List String := ["min", "max", "abs", "sqrt"]

mutual

/-- Embedding of `_SafeEval.visit` over the expression AST, with the
variable mapping of the constructed evaluator.  Results model the float
returned by `visit`; errors model the exceptions it raises.  Node
dispatch follows the source exactly: `ast.Num` (int/float constants) and
numeric `ast.Constant` evaluate — and a `bool` constant is an `int` in
Python, so it evaluates to 1.0/0.0 rather than being rejected —, names
must be present in the variable mapping, `ast.BinOp`/`ast.UnaryOp` visit
their operands first and then dispatch on the operator, `ast.Call`
requires a plain name from the allow-list and visits all arguments, and
every other node kind raises `ValueError("Expression not allowed")`
without visiting its children. -/
def safeEval (vars : List (String × ℚ)) : PyAst → Except String ℚ
  | .constant (.cInt n) => Except.ok (n : ℚ)
  | .constant (.cFloat q) => Except.ok q
  | .constant (.cBool b) => Except.ok (if b then 1 else 0)
  | .constant (.cStr _) => Except.error "Constant type not allowed"
  | .constant .cNone => Except.error "Constant type not allowed"
  | .name id =>
    match vars.lookup id with
    | some v => Except.ok v
    | none => Except.error ("Unknown variable: " ++ id)
  | .binOp op l r =>
    (safeEval vars l).bind fun a =>
      (safeEval vars r).bind fun b => applyBin op a b
  | .unaryOp op e =>
    (safeEval vars e).bind fun v =>
      match op with
      | .uAdd => Except.ok v
      | .uSub => Except.ok (-v)
      | _ => Except.error "Unary operator not allowed"
  | .call (.name fn) args =>
    if fn ∈ allowedFuncs then
      (safeEvalArgs vars args).bind fun vs => applyFn fn vs
    else Except.error "Function not allowed"
  | .call _ _ => Except.error "Function not allowed"
  | .compareAst _ _ => Except.error "Expression not allowed"
  | .attributeAst _ _ => Except.error "Expression not allowed"
  | .listAst _ => Except.error "Expression not allowed"
  | .tupleAst _ => Except.error "Expression not allowed"
  | .dictAst _ => Except.error "Expression not allowed"
  | .ifExpAst _ _ _ => Except.error "Expression not allowed"

/-- Visit of the argument list of an `ast.Call`, left to right, stopping
at the first raised exception (the Python list comprehension
`[self.visit(a) for a in node.args]`). -/
def safeEvalArgs (vars : List (String × ℚ)) : List PyAst → Except String (List ℚ)
  | [] => Except.ok []
  | a :: rest =>
    (safeEval vars a).bind fun v =>
      (safeEvalArgs vars rest).bind fun vs => Except.ok (v :: vs)

end

/-! ### Range mapper (`_parse_curve`, `_map_value`) -/

/-- Embedding of `_parse_curve(curve)`: a falsy curve value is linear;
otherwise the stringified value is stripped and lowercased, a `pow:` form
extracts the text after the first colon and parses it as the gamma (parse
failure falls back to gamma 1.0), the bare tokens `pow`/`power` mean
gamma 1.0, and anything else is linear. -/
def parseCurve (curve : Val) : String × ℚ :=
  if pyTruthy curve then
    let c := (trimChars (pyStrOfVal curve).toList).map Char.toLower
    if c.take 4 = ['p', 'o', 'w', ':'] then
      ("pow", (parsePyFloat (c.drop 4).asString).getD 1)
    else if c = ['p', 'o', 'w'] ∨ c = ['p', 'o', 'w', 'e', 'r'] then ("pow", 1)
    else ("linear", 1)
  else ("linear", 1)

/-- Python `**` as used in the gamma-curve step of `_map_value`, where the
base is non-negative and the exponent is at least `1e-9`: exact for
integer exponents.  A fractional exponent generally yields an irrational
number with no rational counterpart; that case is modelled as 0 and is
exercised by no claim (every claim uses the linear curve). -/
def qPowCurve (a b : ℚ) : ℚ :=
  if b.den = 1 then
    if 0 ≤ b.num then a ^ b.num.toNat
    else if a = 0 then 0
    else (a ^ (-b.num).toNat)⁻¹
  else 0

/-- Embedding of `_map_value(x, in_min, in_max, out_min, out_max, curve,
invert, clamp)`: normalize (with the degenerate-range guard), clamp the
normalized value to [0,1] when `clamp`, apply the curve, invert, scale to
the output range and round. -/
def mapValue (x inMin inMax outMin outMax : ℚ) (curve : Val)
    (invert clamp : Bool) : Int :=
  let t : ℚ := if inMax = inMin then 0 else (x - inMin) / (inMax - inMin)
  let t := if clamp then max 0 (min 1 t) else t
  let pc := parseCurve curve
  let t := if pc.1 = "pow" then qPowCurve (max 0 t) (max (1 / 1000000000) pc.2) else t
  let t := if invert then 1 - t else t
  pyRound (outMin + t * (outMax - outMin))

/-! ### Macro map engine (`map_to_macros`) -/

/-- Embedding of `_coerce_float(v, default)`: `default` when the value is
absent or `None`, otherwise `float(v)` with `default` on any exception. -/
def coerceFloat (v : Option Val) (d : ℚ) : ℚ :=
  match v with
  | none => d
  | some .vnone => d
  | some w => (pyFloatOf w).getD d

/-- The `try: lo, hi = float(rng[0]), float(rng[1]) except: defaults`
block of `map_to_macros`, for the `in`/`out` range specs: subscript the
spec value at 0 and at 1 and coerce each to float; any exception
(missing element, non-subscriptable value, non-coercible element) falls
back to the given defaults. -/
def readRange (v : Val) (d1 d2 : ℚ) : ℚ × ℚ :=
  match (pyGetIdx v 0).bind pyFloatOf, (pyGetIdx v 1).bind pyFloatOf with
  | some a, some b => (a, b)
  | _, _ => (d1, d2)

/-- The `values.index(None)` / `except ValueError: slot = 0` fallback of
`place`: index of the first unassigned slot, or 0 when every slot is
assigned. -/
def firstEmptySlot (values : List (Option Int)) : Nat :=
  match values.findIdx? Option.isNone with
  | some j => j
  | none => 0

/-- Slot selection of `place(val, idx)`: an integer `idx` in [1,8] is
1-based, else in [0,7] 0-based; otherwise the first empty slot (0 when
none is empty). -/
def targetSlot (values : List (Option Int)) (idx : Option Int) : Nat :=
  match idx with
  | some i =>
    if 1 ≤ i ∧ i ≤ 8 then (i - 1).toNat
    else if 0 ≤ i ∧ i ≤ 7 then i.toNat
    else firstEmptySlot values
  | none => firstEmptySlot values

/-- Embedding of the `place` helper of `map_to_macros`: store the value,
clamped to [0,127], into the selected slot. -/
def place (values : List (Option Int)) (val : Int) (idx : Option Int) :
    List (Option Int) :=
  values.set (targetSlot values idx) (some (max 0 (min 127 val)))

/-- Source-value evaluation of one entry (the `src_val` computation of
`map_to_macros`, given the entry `source` dict): a present `constant` key
is coerced with the entry default as fallback; else a present
`expr` + dict-valued `vars` pair resolves each variable through the path
resolver and evaluates the expression, absorbing every parse or
evaluation failure into the entry default (the `try/except` of the
source); else a present `path` resolves through the path resolver; else
the entry default.  `parseExpr` stands for the standard-library
`ast.parse`. -/
def sourceValue (parseExpr : String → Except String PyAst) (patch : Val)
    (src : List (String × Val)) : ℚ :=
  let defaultVal := coerceFloat (lookupKV src "default") 0
  if (lookupKV src "constant").isSome then
    coerceFloat (lookupKV src "constant") defaultVal
  else
    match lookupKV src "expr", lookupKV src "vars" with
    | some exprV, some (.vdict vs) =>
      let varMap := vs.map fun kv =>
        (kv.1, coerceFloat
          ((resolvePath patch (pyStrOfVal kv.2) (some defaultVal)).map Val.vfloat)
          defaultVal)
      (match parseExpr (pyStrOfVal exprV) with
       | .ok tree =>
         match safeEval varMap tree with
         | .ok v => v
         | .error _ => defaultVal
       | .error _ => defaultVal)
    | _, _ =>
      match lookupKV src "path" with
      | some pathV =>
        coerceFloat
          ((resolvePath patch (pyStrOfVal pathV) (some defaultVal)).map Val.vfloat)
          defaultVal
      | none => defaultVal

/-- The integer computed for one entry by `map_to_macros` before `place`:
the source value, pushed through the mapping spec (`in`/`out` ranges with
defaults and malformed-spec fallback, `curve`, `invert`, `clamp`) and
`_map_value`.  `src` and `mp` are the entry `source` and `mapping` dicts. -/
def entryValue (parseExpr : String → Except String PyAst) (patch : Val)
    (src mp : List (String × Val)) : Int :=
  let srcVal := sourceValue parseExpr patch src
  let inRng := (lookupKV mp "in").getD (.vlist [.vfloat 0, .vfloat 1])
  let outRng := (lookupKV mp "out").getD (.vlist [.vint 0, .vint 127])
  let curve := (lookupKV mp "curve").getD .vnone
  let invert := pyTruthy ((lookupKV mp "invert").getD (.vbool false))
  let clamp := pyTruthy ((lookupKV mp "clamp").getD (.vbool true))
  let inPair := readRange inRng 0 1
  let outPair := readRange outRng 0 127
  mapValue srcVal inPair.1 inPair.2 outPair.1 outPair.2 curve invert clamp

/-- One iteration of the `for entry in entries` loop of `map_to_macros`.
Non-dict entries are skipped.  For a dict entry, `source` and `mapping`
are read with `entry.get(k, dict()) or dict()` — a falsy value is replaced
by an empty dict, but a TRUTHY non-dict value survives and the subsequent
`.get` attribute access raises `AttributeError`, which no handler in
`map_to_macros` catches: that is the `Except.error` path.  (In the source
the `source.get` access at the start of source evaluation raises before
the `mapping.get` accesses; source evaluation itself is pure and cannot
raise, so hoisting the two shape checks in that order preserves the
observable behaviour.) -/
def processEntry (parseExpr : String → Except String PyAst) (patch : Val)
    (st : List (Option Int)) (entry : Val) : Except String (List (Option Int)) :=
  match entry with
  | .vdict kvs =>
    let idxV := lookupKV kvs "idx"
    let sourceV := let s := (lookupKV kvs "source").getD (.vdict []);
      if pyTruthy s then s else .vdict []
    let mappingV := let m := (lookupKV kvs "mapping").getD (.vdict []);
      if pyTruthy m then m else .vdict []
    match sourceV, mappingV with
    | .vdict src, .vdict mp =>
      Except.ok (place st (entryValue parseExpr patch src mp) (idxV.bind pyAsInt))
    | .vdict _, _ => Except.error "AttributeError: mapping value has no attribute get"
    | _, _ => Except.error "AttributeError: source value has no attribute get"
  | _ => Except.ok st

/-- Embedding of `map_to_macros(patch, configuration)`.  The configuration
is the already-loaded `macros` entry list (`load_macro_map` is the file-IO
collaborator whose post-condition is exactly a list here; the engine body
starts from `entries`).  The 8-slot accumulator starts all-unassigned;
after the loop, unassigned slots are reported as 0.  An `Except.error`
models a Python exception escaping `map_to_macros` to its caller. -/
def mapToMacros (parseExpr : String → Except String PyAst) (patch : Val)
    (entries : List Val) : Except String (List Int) :=
  match entries.foldlM (processEntry parseExpr patch) (List.replicate 8 (none : Option Int)) with
  | .ok st => .ok (st.map (fun v => v.getD 0))
  | .error e => .error e

/-- Degenerate expression parser used to instantiate `parseExpr` in
concrete witnesses whose entries never reach the expression branch. -/
def noParse (s : String) : Except String PyAst :=
  Except.error s

/-! ### Specification-side vocabulary used by the claims -/

/-- Clamp a rational to [0,1], the `clamp01` of the specification. -/
def clamp01 (q : ℚ) : ℚ :=
  max 0 (min 1 q)

/-- The valid-index slot rule of the specification: an integer in [1,8]
targets slot `idx-1`, else an integer in [0,7] targets slot `idx`,
anything else has no directly-addressed slot. -/
def slotOfIdx (i : Int) : Option Nat :=
  if 1 ≤ i ∧ i ≤ 8 then some (i - 1).toNat
  else if 0 ≤ i ∧ i ≤ 7 then some i.toNat
  else none

/-- A well-formed configuration entry: integer `idx`, dict `source`,
dict `mapping`. -/
def eEntry (i : Int) (src mp : List (String × Val)) : Val :=
  .vdict [("idx", .vint i), ("source", .vdict src), ("mapping", .vdict mp)]

/-! ### Helper lemmas -/

/-- pyRound stays within an integer interval containing its argument. -/
theorem pyRound_mem (q : ℚ) (lo hi : Int) (h0 : (lo : ℚ) ≤ q) (h1 : q ≤ (hi : ℚ)) :
    lo ≤ pyRound q ∧ pyRound q ≤ hi := by
  have hfl : lo ≤ ⌊q⌋ := Int.le_floor.mpr h0
  have hfh : ⌊q⌋ ≤ hi := by
    have := Int.floor_le_floor h1
    simpa using this
  have hq : (⌊q⌋ : ℚ) ≤ q := Int.floor_le q
  unfold pyRound
  dsimp only
  by_cases hc1 : q - (⌊q⌋ : ℚ) < 1/2
  · rw [if_pos hc1]
    exact ⟨hfl, hfh⟩
  · rw [if_neg hc1]
    push_neg at hc1
    have hlt : ⌊q⌋ < hi := by
      have h2 : (⌊q⌋ : ℚ) + 1/2 ≤ q := by linarith
      have h3 : (⌊q⌋ : ℚ) < (hi : ℚ) := by linarith
      exact_mod_cast h3
    by_cases hc2 : 1/2 < q - (⌊q⌋ : ℚ)
    · rw [if_pos hc2]
      omega
    · rw [if_neg hc2]
      split <;> omega

/-- The [0,127] clamp of `place` is the identity on values already in
range. -/
theorem clamp127_of_bounds (v : Int) (h0 : 0 ≤ v) (h1 : v ≤ 127) :
    max 0 (min 127 v) = v := by
  rw [min_eq_right h1, max_eq_right h0]

/-! ### C1 -/

/-- Configuration entry whose `source` field is a truthy non-dict value:
the shape the claim asserts is absorbed. -/
def entryTruthySource : Val :=
  .vdict [("source", .vstr "x")]

/-- Claim C1 (code_bug evidence): `map_to_macros` is claimed never to
raise for entries whose `source` or `mapping` fields have arbitrary
shapes, but an entry whose `source` is a truthy non-dict value (here the
string "x") reaches `source.get("default")` on a non-dict — the `or dict()`
guard of the source only replaces FALSY values — and the resulting
`AttributeError` escapes to the caller.  The model returns the
corresponding error for every expression parser, every patch document and
this one-entry configuration. -/
theorem c1_map_to_macros_raises_on_truthy_nondict_source
    (parseExpr : String → Except String PyAst) :
    mapToMacros parseExpr (.vdict []) [entryTruthySource] =
      .error "AttributeError: source value has no attribute get" := rfl

/-! ### C4 -/

/-- Document with a two-dimensional array at `a.b`: `a.b[0][1]` should be
5/2 under chained indexing. -/
def docC4 : Val :=
  .vdict [("a", .vdict [("b", .vlist [.vlist [.vfloat (3/2), .vfloat (5/2)]])])]

/-- Claim C4 (code_bug evidence): a segment with more than one bracketed
index does NOT resolve by chained indexing.  Looking up `a.b`, then
indexing 0, then indexing 1 in `docC4` yields the number 5/2, yet
`resolve_path(docC4, "a.b[0][1]", 9)` returns the default 9: the source
slices the index text of segment `b[0][1]` as everything between the
FIRST `[` and the LAST `]`, i.e. the string `0][1`, whose `int()`
conversion raises `ValueError`, swallowed into the default — despite the
source comment "Support multi-dimensional (handled by while loop)". -/
theorem c4_multi_bracket_returns_default_not_chained_value :
    ((pyGetKey docC4 "a").bind (fun v => pyGetKey v "b")).bind
        (fun v => (pyGetIdx v 0).bind (fun w => pyGetIdx w 1)) =
      some (.vfloat (5/2))
    ∧ resolvePath docC4 "a.b[0][1]" (some 9) = some 9
    ∧ resolvePath docC4 "a.b[0][1]" (some 9) ≠ some (5/2) := by
  refine ⟨rfl, by decide, by decide⟩

/-! ### C5 -/

/-- Claim C5 counterexample: the claim says boolean literals cause
failure, but evaluating the boolean constant `True` SUCCEEDS with value
1.0 — Python `bool` is a subclass of `int`, so the
`isinstance(node.value, (int, float))` guard of the `ast.Constant`
branch accepts it. -/
theorem c5_bool_literal_evaluates :
    safeEval [] (.constant (.cBool true)) = .ok 1 := rfl

/-- Claim C5 as amended: the safe evaluator fails on every syntax node
outside the allowed grammar — string and `None` constants, comparisons,
attribute access, list/tuple/dict literals and conditional expressions
fail unconditionally; a binary operator outside `+ - * / % **` and a
unary operator outside `+ -` never produce a value; an unknown variable
name and a call to anything but `min`/`max`/`abs`/`sqrt` (including a
call whose callee is not a plain name) fail — while a BOOLEAN literal,
being a Python `int`, evaluates to 1.0/0.0 instead of failing. -/
theorem c5_disallowed_nodes_fail (vars : List (String × ℚ)) (s attr vid fid : String)
    (b : Bool) (l r c t e f : PyAst) (rs xs args : List PyAst)
    (kvs : List (PyAst × PyAst)) (op : PyBinOp) (u : PyUnOp) :
    safeEval vars (.constant (.cStr s)) = .error "Constant type not allowed"
    ∧ safeEval vars (.constant .cNone) = .error "Constant type not allowed"
    ∧ safeEval vars (.compareAst l rs) = .error "Expression not allowed"
    ∧ safeEval vars (.attributeAst l attr) = .error "Expression not allowed"
    ∧ safeEval vars (.listAst xs) = .error "Expression not allowed"
    ∧ safeEval vars (.tupleAst xs) = .error "Expression not allowed"
    ∧ safeEval vars (.dictAst kvs) = .error "Expression not allowed"
    ∧ safeEval vars (.ifExpAst c t e) = .error "Expression not allowed"
    ∧ (op ∉ ([.addB, .subB, .multB, .divB, .powB, .modB] : List PyBinOp) →
        (safeEval vars (.binOp op l r)).isOk = false)
    ∧ (u ∉ ([.uAdd, .uSub] : List PyUnOp) →
        (safeEval vars (.unaryOp u l)).isOk = false)
    ∧ (vars.lookup vid = none →
        safeEval vars (.name vid) = .error ("Unknown variable: " ++ vid))
    ∧ (fid ∉ allowedFuncs →
        safeEval vars (.call (.name fid) args) = .error "Function not allowed")
    ∧ ((∀ g, f ≠ .name g) →
        safeEval vars (.call f args) = .error "Function not allowed")
    ∧ safeEval vars (.constant (.cBool b)) = .ok (if b then 1 else 0) := by
  refine ⟨rfl, rfl, rfl, rfl, rfl, rfl, rfl, rfl, ?_, ?_, ?_, ?_, ?_, rfl⟩
  · intro hop
    rw [safeEval]
    cases safeEval vars l with
    | error e => rfl
    | ok a =>
      cases safeEval vars r with
      | error e => rfl
      | ok b =>
        cases op <;> simp_all [applyBin, Except.bind, Except.isOk, Except.toBool]
  · intro hu
    rw [safeEval]
    cases safeEval vars l with
    | error e => rfl
    | ok a => cases u <;> simp_all [Except.bind, Except.isOk, Except.toBool]
  · intro hv
    rw [safeEval, hv]
  · intro hf
    rw [safeEval, if_neg hf]
  · intro hnf
    cases f with
    | name g => exact absurd rfl (hnf g)
    | constant cv => rfl
    | binOp op l r => rfl
    | unaryOp u e => rfl
    | call f as => rfl
    | compareAst l rs => rfl
    | attributeAst e a => rfl
    | listAst xs => rfl
    | tupleAst xs => rfl
    | dictAst kvs => rfl
    | ifExpAst c t e => rfl

/-- Witness for C5: the amended theorem applied at concrete inputs, with
each hypothesis discharged. -/
theorem c5_disallowed_nodes_fail_witness :
    safeEval [] (.compareAst (.constant (.cInt 1)) []) = .error "Expression not allowed"
    ∧ (safeEval [] (.binOp .bitAndB (.constant (.cInt 1)) (.constant (.cInt 2)))).isOk = false
    ∧ (safeEval [] (.unaryOp .uNot (.constant (.cInt 1)))).isOk = false
    ∧ safeEval [] (.name "zz") = .error "Unknown variable: zz"
    ∧ safeEval [] (.call (.name "sin") []) = .error "Function not allowed"
    ∧ safeEval [] (.call (.constant (.cInt 1)) []) = .error "Function not allowed" := by
  obtain ⟨h1, h2, h3, h4, h5, h6, h7, h8, h9, h10, h11, h12, h13, h14⟩ :=
    c5_disallowed_nodes_fail [] "s" "attr" "zz" "sin" true
      (.constant (.cInt 1)) (.constant (.cInt 2)) (.constant (.cInt 1))
      (.constant (.cInt 1)) (.constant (.cInt 1)) (.constant (.cInt 1))
      [] [] [] [] .bitAndB .uNot
  exact ⟨h3, h9 (by decide), h10 (by decide), h11 (by decide), h12 (by decide),
    h13 (by intro g; simp)⟩

/-! ### C6 -/

/-- Entry with a THREE-element `in` range spec (constant source 1.0). -/
def entryThreeIn : Val :=
  .vdict [("source", .vdict [("constant", .vfloat 1)]),
          ("mapping", .vdict [("in", .vlist [.vfloat 0, .vfloat 2, .vfloat 99])])]

/-- The same entry with the documented default `in` range [0,1]. -/
def entryDefaultIn : Val :=
  .vdict [("source", .vdict [("constant", .vfloat 1)]),
          ("mapping", .vdict [("in", .vlist [.vfloat 0, .vfloat 1])])]

/-- Claim C6 counterexample: the claim says a non-2-element `in` spec
falls back to the default range [0,1], but a 3-element spec `[0, 2, 99]`
is consumed as the range (0,2): the source merely subscripts elements 0
and 1 inside its `try`, so nothing fails.  With constant source 1.0 the
engine yields 64 (normalizing by the range (0,2)), while the default
range [0,1] would yield 127. -/
theorem c6_three_element_range_not_defaulted :
    readRange (.vlist [.vfloat 0, .vfloat 2, .vfloat 99]) 0 1 = (0, 2)
    ∧ readRange (.vlist [.vfloat 0, .vfloat 2, .vfloat 99]) 0 1 ≠ (0, 1)
    ∧ mapToMacros noParse (.vdict []) [entryThreeIn] = .ok [64, 0, 0, 0, 0, 0, 0, 0]
    ∧ mapToMacros noParse (.vdict []) [entryDefaultIn] = .ok [127, 0, 0, 0, 0, 0, 0, 0] := by
  refine ⟨by decide, by decide, by decide, by decide⟩

/-- Claim C6 as amended: a range spec that is a list with FEWER than two
elements, or whose element 0 or 1 is not float-coercible, falls back to
the given defaults before the range mapper is invoked; but a list of two
or more float-coercible elements is consumed through its first two
elements — a spec longer than two elements is NOT treated as malformed. -/
theorem c6_range_fallback_rule (xs : List Val) (d1 d2 : ℚ) :
    (xs.length ≤ 1 → readRange (.vlist xs) d1 d2 = (d1, d2))
    ∧ (∀ a b rest qa qb, xs = a :: b :: rest →
        pyFloatOf a = some qa → pyFloatOf b = some qb →
        readRange (.vlist xs) d1 d2 = (qa, qb))
    ∧ (∀ a b rest, xs = a :: b :: rest →
        pyFloatOf a = none ∨ pyFloatOf b = none →
        readRange (.vlist xs) d1 d2 = (d1, d2)) := by
  have hget : ∀ (i : Int), 0 ≤ i → pyGetIdx (.vlist xs) i = xs.get? i.toNat := by
    intro i hi
    simp [pyGetIdx, pySeqGet, hi]
  refine ⟨?_, ?_, ?_⟩
  · intro hlen
    unfold readRange
    rw [hget 1 (by norm_num)]
    have h1 : xs.get? (Int.toNat 1) = none := by
      apply List.get?_eq_none.mpr
      simpa using hlen
    rw [h1]
    simp
  · intro a b rest qa qb hxs ha hb
    subst hxs
    unfold readRange
    rw [hget 0 (by norm_num), hget 1 (by norm_num)]
    simp [ha, hb]
  · intro a b rest hxs hnone
    subst hxs
    unfold readRange
    rw [hget 0 (by norm_num), hget 1 (by norm_num)]
    rcases hnone with h | h
    · simp [h]
    · simp [h]

/-- Witness for C6: the amended rule applied at concrete range specs. -/
theorem c6_range_fallback_rule_witness :
    readRange (.vlist [.vfloat 5]) 0 1 = (0, 1)
    ∧ readRange (.vlist [.vfloat 2, .vfloat 3, .vfloat 9]) 0 1 = (2, 3)
    ∧ readRange (.vlist [.vnone, .vfloat 3]) 0 1 = (0, 1) := by
  obtain ⟨h1, _, _⟩ := c6_range_fallback_rule [.vfloat 5] 0 1
  obtain ⟨_, h2, _⟩ := c6_range_fallback_rule [.vfloat 2, .vfloat 3, .vfloat 9] 0 1
  obtain ⟨_, _, h3⟩ := c6_range_fallback_rule [.vnone, .vfloat 3] 0 1
  exact ⟨h1 (by decide), h2 (.vfloat 2) (.vfloat 3) [.vfloat 9] 2 3 rfl (by decide) (by decide),
    h3 .vnone (.vfloat 3) [] rfl (Or.inl rfl)⟩

/-! ### C7 -/

/-- Entry with constant source `c`, `in=[0,1]`, `out=[0,127]`, no curve,
no invert, default clamp. -/
def constEntry (c : ℚ) : Val :=
  .vdict [("source", .vdict [("constant", .vfloat c)]),
          ("mapping", .vdict [("in", .vlist [.vfloat 0, .vfloat 1]),
                              ("out", .vlist [.vint 0, .vint 127])])]

/-- Claim C7: for every constant `c` with the identity input range [0,1],
output range [0,127], linear curve, no inversion and default clamping,
the slot value is exactly `round(clamp01(c) * 127)` (Python round, half to
even), landing in the first empty slot 0; the remaining slots are 0. -/
theorem c7_constant_linear_round (pe : String → Except String PyAst) (patch : Val) (c : ℚ) :
    mapToMacros pe patch [constEntry c] =
      .ok [pyRound (clamp01 c * 127), 0, 0, 0, 0, 0, 0, 0] := by
  have h2 : mapToMacros pe patch [constEntry c] =
      .ok [max 0 (min 127 (mapValue c 0 1 0 127 .vnone false true)), 0, 0, 0, 0, 0, 0, 0] := rfl
  have hm : mapValue c 0 1 0 127 .vnone false true =
      pyRound (0 + (max 0 (min 1 ((c - 0) / (1 - 0)))) * (127 - 0)) := rfl
  have harg : 0 + (max 0 (min 1 ((c - 0) / (1 - 0)))) * (127 - 0) = clamp01 c * 127 := by
    norm_num [clamp01]
  have hb : 0 ≤ pyRound (clamp01 c * 127) ∧ pyRound (clamp01 c * 127) ≤ 127 := by
    have h0 : (0 : ℚ) ≤ clamp01 c := le_max_left 0 (min 1 c)
    have h1 : clamp01 c ≤ 1 := max_le (by norm_num) (min_le_left 1 c)
    have hlo : ((0 : Int) : ℚ) ≤ clamp01 c * 127 := by
      push_cast
      nlinarith
    have hhi : clamp01 c * 127 ≤ ((127 : Int) : ℚ) := by
      push_cast
      nlinarith
    exact pyRound_mem (clamp01 c * 127) 0 127 hlo hhi
  rw [h2, hm, harg, clamp127_of_bounds _ hb.1 hb.2]

/-! ### C8 -/

/-- Claim C8: whenever the input range is degenerate (`in_min == in_max`)
the normalized value is 0 regardless of `x` — no division happens — and
under the linear, non-inverted defaults the output is `out_min` rounded
(for either clamp setting, since 0 is already inside [0,1]). -/
theorem c8_degenerate_range_t_zero (x inm om oM : ℚ) (cl : Bool) :
    mapValue x inm inm om oM .vnone false cl = pyRound om := by
  unfold mapValue
  rw [if_pos rfl]
  cases cl
  · show pyRound (om + 0 * (oM - om)) = pyRound om
    congr 1
    ring
  · show pyRound (om + (max 0 (min 1 (0 : ℚ))) * (oM - om)) = pyRound om
    congr 1
    norm_num

/-! ### C9 -/

/-- Claim C9: a negative bracketed index indexes the sequence from its
end, Python style, and is not a structural failure: for every non-empty
list sitting under key `osc` whose LAST element is a dict mapping `amp`
to a float `q`, resolving `osc[-1].amp` returns `q`, not the supplied
default. -/
theorem c9_negative_index_from_end (xs : List Val) (kvs : List (String × Val))
    (q : ℚ) (d : Option ℚ)
    (hlast : xs.getLast? = some (.vdict kvs))
    (hamp : lookupKV kvs "amp" = some (.vfloat q)) :
    resolvePath (.vdict [("osc", .vlist xs)]) "osc[-1].amp" d = some q := by
  have hlen : 1 ≤ xs.length := by
    cases xs with
    | nil => simp at hlast
    | cons a t => simp
  have h1 : resolveStep (Val.vdict [("osc", Val.vlist xs)]) "osc[-1]" =
      pyGetIdx (.vlist xs) (-1) := rfl
  have h2 : pyGetIdx (.vlist xs) (-1) = xs.get? (xs.length - 1) := by
    simp only [pyGetIdx, pySeqGet]
    rw [if_neg (by norm_num : ¬ (0 : Int) ≤ -1),
      if_pos (by omega : (0 : Int) ≤ (xs.length : Int) + -1)]
    congr 1
    omega
  have h3 : xs.get? (xs.length - 1) = some (.vdict kvs) := by
    rw [List.get?_eq_getElem?, ← List.getLast?_eq_getElem?]
    exact hlast
  have h4 : resolveStep (Val.vdict kvs) "amp" = lookupKV kvs "amp" := rfl
  have hsplit : splitParts "osc[-1].amp" = ["osc[-1]", "amp"] := rfl
  unfold resolvePath
  rw [hsplit, List.foldlM_cons, h1, h2, h3]
  show (match (Option.bind (some (Val.vdict kvs))
      (fun b => List.foldlM resolveStep b ["amp"])) with
    | some cur => coerceTerminal cur d
    | none => d) = some q
  rw [show ((some (Val.vdict kvs)).bind fun b => List.foldlM resolveStep b ["amp"]) =
      List.foldlM resolveStep (Val.vdict kvs) ["amp"] from rfl,
    List.foldlM_cons, h4, hamp]
  rfl

/-- Witness for C9: the theorem applied to a concrete two-oscillator
document. -/
theorem c9_negative_index_from_end_witness :
    resolvePath (.vdict [("osc", .vlist
        [.vdict [("amp", .vfloat (4/5))], .vdict [("amp", .vfloat (7/10))]])])
      "osc[-1].amp" (some 9) = some (7/10) :=
  c9_negative_index_from_end
    [.vdict [("amp", .vfloat (4/5))], .vdict [("amp", .vfloat (7/10))]]
    [("amp", .vfloat (7/10))] (7/10) (some 9) rfl rfl

/-! ### C3 -/

/-- firstEmptySlot returns the index of the first `none` when one exists. -/
theorem firstEmptySlot_of_first (l : List (Option Int)) (j : Nat)
    (hj : l[j]? = some none) (hmin : ∀ k < j, l[k]? ≠ some none) :
    firstEmptySlot l = j := by
  suffices h : l.findIdx? Option.isNone = some j by
    unfold firstEmptySlot
    rw [h]
  induction l generalizing j with
  | nil => simp at hj
  | cons a t ih =>
    cases j with
    | zero =>
      simp at hj
      subst hj
      simp [List.findIdx?_cons]
    | succ k =>
      have ha : a ≠ none := by
        have := hmin 0 (Nat.succ_pos k)
        simpa using this
      have hisNone : Option.isNone a = false := by
        cases a with
        | none => exact absurd rfl ha
        | some x => rfl
      rw [List.findIdx?_cons, hisNone]
      simp only [Bool.false_eq_true, if_false]
      have ht : t.findIdx? Option.isNone = some k := by
        apply ih
        · simpa using hj
        · intro k2 hk2
          have := hmin (k2 + 1) (by omega)
          simpa using this
      rw [show (0 + 1) = 1 from rfl, List.findIdx?_succ, ht]
      rfl

/-- firstEmptySlot falls back to 0 when every slot is assigned. -/
theorem firstEmptySlot_of_full (l : List (Option Int))
    (hall : ∀ k < l.length, l[k]? ≠ some none) :
    firstEmptySlot l = 0 := by
  suffices h : l.findIdx? Option.isNone = none by
    unfold firstEmptySlot
    rw [h]
  induction l with
  | nil => rfl
  | cons a t ih =>
    have ha : a ≠ none := by
      have := hall 0 (by simp)
      simpa using this
    have hisNone : Option.isNone a = false := by
      cases a with
      | none => exact absurd rfl ha
      | some x => rfl
    rw [List.findIdx?_cons, hisNone]
    simp only [Bool.false_eq_true, if_false]
    have ht : t.findIdx? Option.isNone = none := by
      apply ih
      intro k hk
      have := hall (k + 1) (by simpa using Nat.succ_lt_succ hk)
      simpa using this
    rw [show (0 + 1) = 1 from rfl, List.findIdx?_succ, ht]
    rfl

/-- Claim C3: slot placement.  `place` writes the clamped value into the
slot selected by `targetSlot`; a 1-based index in [1,8] targets `idx-1`,
else a 0-based index in [0,7] targets `idx`, and an absent or otherwise
invalid index targets the first still-unassigned slot scanning from 0 — or
slot 0 when every slot is assigned; and two consecutive placements that
both lack a valid index land in the first two empty slots in order,
without overwriting each other. -/
theorem c3_slot_placement (values : List (Option Int)) (val v1 v2 : Int)
    (idx : Option Int) :
    place values val idx = values.set (targetSlot values idx) (some (max 0 (min 127 val)))
    ∧ (∀ i : Int, idx = some i → 1 ≤ i → i ≤ 8 →
        targetSlot values idx = (i - 1).toNat)
    ∧ (∀ i : Int, idx = some i → ¬(1 ≤ i ∧ i ≤ 8) → 0 ≤ i → i ≤ 7 →
        targetSlot values idx = i.toNat)
    ∧ ((idx = none ∨ ∃ i, idx = some i ∧ ¬(1 ≤ i ∧ i ≤ 8) ∧ ¬(0 ≤ i ∧ i ≤ 7)) →
        targetSlot values idx = firstEmptySlot values)
    ∧ ((∀ k < values.length, values[k]? ≠ some none) → firstEmptySlot values = 0)
    ∧ (∀ j : Nat, values[j]? = some none → (∀ k < j, values[k]? ≠ some none) →
        firstEmptySlot values = j)
    ∧ (∀ j1 j2 : Nat, values[j1]? = some none → (∀ k < j1, values[k]? ≠ some none) →
        j1 < j2 → values[j2]? = some none →
        (∀ k, j1 < k → k < j2 → values[k]? ≠ some none) →
        (place (place values v1 none) v2 none)[j1]? = some (some (max 0 (min 127 v1)))
        ∧ (place (place values v1 none) v2 none)[j2]? = some (some (max 0 (min 127 v2)))) := by
  refine ⟨rfl, ?_, ?_, ?_, firstEmptySlot_of_full values, firstEmptySlot_of_first values, ?_⟩
  · intro i hi h1 h8
    subst hi
    show (if 1 ≤ i ∧ i ≤ 8 then (i - 1).toNat
      else if 0 ≤ i ∧ i ≤ 7 then i.toNat else firstEmptySlot values) = (i - 1).toNat
    rw [if_pos ⟨h1, h8⟩]
  · intro i hi hno h0 h7
    subst hi
    show (if 1 ≤ i ∧ i ≤ 8 then (i - 1).toNat
      else if 0 ≤ i ∧ i ≤ 7 then i.toNat else firstEmptySlot values) = i.toNat
    rw [if_neg hno, if_pos ⟨h0, h7⟩]
  · intro h
    rcases h with h | ⟨i, hi, hno18, hno07⟩
    · subst h
      rfl
    · subst hi
      show (if 1 ≤ i ∧ i ≤ 8 then (i - 1).toNat
        else if 0 ≤ i ∧ i ≤ 7 then i.toNat else firstEmptySlot values) = firstEmptySlot values
      rw [if_neg hno18, if_neg hno07]
  · intro j1 j2 hj1 hmin hlt hj2 hmid
    have hlen1 : j1 < values.length := by
      by_contra hge
      rw [List.getElem?_eq_none (by omega)] at hj1
      exact Option.noConfusion hj1
    have hlen2 : j2 < values.length := by
      by_contra hge
      rw [List.getElem?_eq_none (by omega)] at hj2
      exact Option.noConfusion hj2
    have hstep1 : place values v1 none = values.set j1 (some (max 0 (min 127 v1))) := by
      unfold place
      rw [show targetSlot values none = firstEmptySlot values from rfl,
        firstEmptySlot_of_first values j1 hj1 hmin]
    set st1 := values.set j1 (some (max 0 (min 127 v1))) with hst1
    have hst1j1 : st1[j1]? = some (some (max 0 (min 127 v1))) := by
      rw [hst1, List.getElem?_set]
      simp [hlen1]
    have hst1j2 : st1[j2]? = some none := by
      rw [hst1, List.getElem?_set, if_neg (by omega)]
      exact hj2
    have hst1min : ∀ k < j2, st1[k]? ≠ some none := by
      intro k hk
      by_cases hkj1 : k = j1
      · subst hkj1
        rw [hst1j1]
        simp
      · rw [hst1, List.getElem?_set, if_neg (by omega)]
        rcases Nat.lt_or_ge k j1 with hlt1 | hge1
        · exact hmin k hlt1
        · exact hmid k (by omega) hk
    have hstep2 : place st1 v2 none = st1.set j2 (some (max 0 (min 127 v2))) := by
      unfold place
      rw [show targetSlot st1 none = firstEmptySlot st1 from rfl,
        firstEmptySlot_of_first st1 j2 hst1j2 hst1min]
    rw [hstep1, hstep2]
    constructor
    · rw [List.getElem?_set, if_neg (by omega)]
      exact hst1j1
    · rw [List.getElem?_set]
      have : j2 < st1.length := by
        rw [hst1, List.length_set]
        exact hlen2
      simp [this]

/-- Slot array used by the C3 witness: slots 0 and 3 assigned, the rest
empty. -/
def demoSlots : List (Option Int) :=
  [some 5, none, none, some 7, none, none, none, none]

/-- Witness for C3: the placement rules applied at concrete inputs — a
1-based index 3 targets slot 2, an index 0 targets slot 0 (0-based), an
out-of-range index 9 targets the first empty slot 1, and two index-less
placements fill the first two empty slots 1 and 2 without overwriting
each other. -/
theorem c3_slot_placement_witness :
    targetSlot demoSlots (some 3) = 2
    ∧ targetSlot demoSlots (some 0) = 0
    ∧ targetSlot demoSlots (some 9) = 1
    ∧ (place (place demoSlots 10 none) 20 none)[1]? = some (some 10)
    ∧ (place (place demoSlots 10 none) 20 none)[2]? = some (some 20) := by
  obtain ⟨-, h2, h3, h4, -, h6, h7⟩ := c3_slot_placement demoSlots 0 10 20 (some 3)
  obtain ⟨-, -, h3b, -, -, -, -⟩ := c3_slot_placement demoSlots 0 10 20 (some 0)
  obtain ⟨-, -, -, h4c, -, h6c, -⟩ := c3_slot_placement demoSlots 0 10 20 (some 9)
  have hp := h7 1 2 (by decide) (by decide) (by decide) (by decide)
    (by intro k hk1 hk2; omega)
  refine ⟨?_, ?_, ?_, ?_, ?_⟩
  · have := h2 3 rfl (by decide) (by decide)
    simpa using this
  · have := h3b 0 rfl (by decide) (by decide) (by decide)
    simpa using this
  · have h := h4c (Or.inr ⟨9, rfl, by decide, by decide⟩)
    rw [h, h6c 1 (by decide) (by decide)]
  · have := hp.1
    simpa using this
  · have := hp.2
    simpa using this

/-! ### C2 -/

/-- Every successful `processEntry` step either keeps the slot state or is
one `place`. -/
theorem processEntry_ok_shape (pe : String → Except String PyAst) (patch : Val)
    (st : List (Option Int)) (e : Val) (st' : List (Option Int))
    (h : processEntry pe patch st e = .ok st') :
    st' = st ∨ ∃ v i, st' = place st v i := by
  unfold processEntry at h
  cases e with
  | vdict kvs =>
    dsimp only at h
    split at h
    · injection h with h'
      exact Or.inr ⟨_, _, h'.symm⟩
    · exact Except.noConfusion h
    · exact Except.noConfusion h
  | vnone => exact Or.inl (by injection h with h'; exact h'.symm)
  | vbool b => exact Or.inl (by injection h with h'; exact h'.symm)
  | vint n => exact Or.inl (by injection h with h'; exact h'.symm)
  | vfloat q => exact Or.inl (by injection h with h'; exact h'.symm)
  | vstr s => exact Or.inl (by injection h with h'; exact h'.symm)
  | vlist xs => exact Or.inl (by injection h with h'; exact h'.symm)

/-- The slot-state invariant of the engine loop: 8 slots, every assigned
slot within [0,127]. -/
def SlotsInv (st : List (Option Int)) : Prop :=
  st.length = 8 ∧ ∀ x ∈ st, ∀ n : Int, x = some n → 0 ≤ n ∧ n ≤ 127

/-- `place` preserves the slot-state invariant. -/
theorem place_inv (st : List (Option Int)) (v : Int) (i : Option Int)
    (h : SlotsInv st) : SlotsInv (place st v i) := by
  obtain ⟨hlen, hmem⟩ := h
  constructor
  · rw [place, List.length_set]
    exact hlen
  · intro x hx n hxn
    rcases List.mem_or_eq_of_mem_set hx with hmemx | hset
    · exact hmem x hmemx n hxn
    · rw [hset] at hxn
      injection hxn with h'
      subst h'
      constructor
      · exact le_max_left 0 (min 127 v)
      · exact max_le (by norm_num) (min_le_left 127 v)

/-- The engine loop preserves the slot-state invariant. -/
theorem foldl_entries_inv (pe : String → Except String PyAst) (patch : Val) :
    ∀ (entries : List Val) (st st' : List (Option Int)),
    entries.foldlM (processEntry pe patch) st = .ok st' → SlotsInv st → SlotsInv st' := by
  intro entries
  induction entries with
  | nil =>
    intro st st' h hinv
    rw [List.foldlM_nil] at h
    injection h with h'
    rwa [← h']
  | cons e es ih =>
    intro st st' h hinv
    rw [List.foldlM_cons] at h
    cases hpe : processEntry pe patch st e with
    | error msg =>
      rw [hpe] at h
      exact Except.noConfusion h
    | ok st1 =>
      rw [hpe] at h
      have h1 : es.foldlM (processEntry pe patch) st1 = .ok st' := h
      have hinv1 : SlotsInv st1 := by
        rcases processEntry_ok_shape pe patch st e st1 hpe with heq | ⟨v, i, heq⟩
        · rwa [heq]
        · rw [heq]
          exact place_inv st v i hinv
      exact ih st1 st' h1 hinv1

/-- Claim C2: whenever `map_to_macros` returns, it returns exactly 8
integers, each in [0,127] — every assigned slot was clamped by `place`
and every never-assigned slot is reported as 0. -/
theorem c2_output_is_eight_clamped_ints (pe : String → Except String PyAst)
    (patch : Val) (entries : List Val) (out : List Int)
    (h : mapToMacros pe patch entries = .ok out) :
    out.length = 8 ∧ ∀ v ∈ out, 0 ≤ v ∧ v ≤ 127 := by
  unfold mapToMacros at h
  cases hfold : entries.foldlM (processEntry pe patch)
      (List.replicate 8 (none : Option Int)) with
  | error msg =>
    rw [hfold] at h
    exact Except.noConfusion h
  | ok st =>
    rw [hfold] at h
    injection h with h'
    have hinv : SlotsInv st := by
      apply foldl_entries_inv pe patch entries _ st hfold
      constructor
      · simp
      · intro x hx n hxn
        rw [List.eq_of_mem_replicate hx] at hxn
        exact Option.noConfusion hxn
    subst h'
    constructor
    · rw [List.length_map]
      exact hinv.1
    · intro v hv
      rcases List.mem_map.mp hv with ⟨x, hxmem, hxv⟩
      cases x with
      | none =>
        rw [← hxv]
        norm_num
      | some n =>
        have := hinv.2 (some n) hxmem n rfl
        rw [← hxv]
        simpa using this

/-- Witness for C2: a concrete run (constant 0.5 → slot value 64). -/
theorem c2_output_is_eight_clamped_ints_witness :
    ([64, 0, 0, 0, 0, 0, 0, 0] : List Int).length = 8
    ∧ ∀ v ∈ ([64, 0, 0, 0, 0, 0, 0, 0] : List Int), 0 ≤ v ∧ v ≤ 127 :=
  c2_output_is_eight_clamped_ints noParse (.vdict []) [constEntry (1/2)]
    [64, 0, 0, 0, 0, 0, 0, 0] (by decide)

/-! ### C10 -/

/-- One engine step on a well-formed entry is exactly one `place` of the
entry value at the entry index. -/
theorem processEntry_eEntry (pe : String → Except String PyAst) (patch : Val)
    (st : List (Option Int)) (i : Int) (src mp : List (String × Val)) :
    processEntry pe patch st (eEntry i src mp) =
      .ok (place st (entryValue pe patch src mp) (some i)) := by
  cases src <;> cases mp <;> rfl

/-- A valid `idx` always targets its own slot, whatever the slot state. -/
theorem targetSlot_of_slotOfIdx (values : List (Option Int)) (i : Int) (s : Nat)
    (h : slotOfIdx i = some s) :
    targetSlot values (some i) = s := by
  unfold slotOfIdx at h
  show (if 1 ≤ i ∧ i ≤ 8 then (i - 1).toNat
    else if 0 ≤ i ∧ i ≤ 7 then i.toNat else firstEmptySlot values) = s
  split at h
  · injection h with h'
    rwa [if_pos (by assumption)]
  · split at h
    · injection h with h'
      rw [if_neg (by assumption), if_pos (by assumption)]
      exact h'
    · exact Option.noConfusion h

/-- A valid `idx` targets a slot below 8. -/
theorem slotOfIdx_lt_eight (i : Int) (s : Nat) (h : slotOfIdx i = some s) :
    s < 8 := by
  unfold slotOfIdx at h
  split at h
  · injection h with h'
    omega
  · split at h
    · injection h with h'
      omega
    · exact Option.noConfusion h

/-- Claim C10: two well-formed entries whose `idx` values target the same
valid slot: the later entry overwrites the earlier one — the final output
is all zeros except that slot, which holds only the clamped value of the
later entry — and no error is reported. -/
theorem c10_later_entry_overwrites (pe : String → Except String PyAst)
    (patch : Val) (i1 i2 : Int) (src1 mp1 src2 mp2 : List (String × Val)) (s : Nat)
    (h1 : slotOfIdx i1 = some s) (h2 : slotOfIdx i2 = some s) :
    mapToMacros pe patch [eEntry i1 src1 mp1, eEntry i2 src2 mp2] =
      .ok ((List.replicate 8 (0 : Int)).set s
        (max 0 (min 127 (entryValue pe patch src2 mp2))))
    ∧ ((List.replicate 8 (0 : Int)).set s
        (max 0 (min 127 (entryValue pe patch src2 mp2))))[s]? =
      some (max 0 (min 127 (entryValue pe patch src2 mp2))) := by
  have hs8 : s < 8 := slotOfIdx_lt_eight i2 s h2
  constructor
  · unfold mapToMacros
    rw [List.foldlM_cons, processEntry_eEntry]
    rw [show place (List.replicate 8 (none : Option Int))
          (entryValue pe patch src1 mp1) (some i1) =
        (List.replicate 8 (none : Option Int)).set s
          (some (max 0 (min 127 (entryValue pe patch src1 mp1)))) by
      unfold place
      rw [targetSlot_of_slotOfIdx _ i1 s h1]]
    rw [show ((Except.ok ((List.replicate 8 (none : Option Int)).set s
            (some (max 0 (min 127 (entryValue pe patch src1 mp1))))) :
          Except String (List (Option Int))) >>= fun st =>
            List.foldlM (processEntry pe patch) st [eEntry i2 src2 mp2]) =
        List.foldlM (processEntry pe patch)
          ((List.replicate 8 (none : Option Int)).set s
            (some (max 0 (min 127 (entryValue pe patch src1 mp1)))))
          [eEntry i2 src2 mp2] from rfl]
    rw [List.foldlM_cons, processEntry_eEntry]
    rw [show place ((List.replicate 8 (none : Option Int)).set s
            (some (max 0 (min 127 (entryValue pe patch src1 mp1)))))
          (entryValue pe patch src2 mp2) (some i2) =
        ((List.replicate 8 (none : Option Int)).set s
            (some (max 0 (min 127 (entryValue pe patch src1 mp1))))).set s
          (some (max 0 (min 127 (entryValue pe patch src2 mp2)))) by
      unfold place
      rw [targetSlot_of_slotOfIdx _ i2 s h2]]
    rw [List.set_set]
    show Except.ok (((List.replicate 8 (none : Option Int)).set s
        (some (max 0 (min 127 (entryValue pe patch src2 mp2))))).map
          (fun v => v.getD 0)) = _
    rw [List.map_set, List.map_replicate]
    rfl
  · rw [List.getElem?_set]
    simp [hs8]

/-- Witness for C10: idx 1 (1-based) and idx 0 (0-based) both target slot
0; the later constant 0.25 wins with value 32. -/
theorem c10_later_entry_overwrites_witness :
    mapToMacros noParse (.vdict [])
      [eEntry 1 [("constant", .vfloat 1)] [],
       eEntry 0 [("constant", .vfloat (1/4))] []] =
      .ok [32, 0, 0, 0, 0, 0, 0, 0] := by
  have h := (c10_later_entry_overwrites noParse (.vdict []) 1 0
    [("constant", .vfloat 1)] [] [("constant", .vfloat (1/4))] [] 0
    (by decide) (by decide)).1
  rw [h]
  decide

end Massive
